import Mathlib

set_option maxRecDepth 4000

/-!
Shallow embedding of `expense_tracker.py` (Advanced-expense-tracker).

Modelling conventions:
  * Timestamps are modelled at day granularity as an integer day count since
    the Unix epoch (`date : ℤ`); the calendar month of a day is recovered with
    the standard civil-calendar conversion (`civilFromDays`), matching
    pandas `to_period('M')` / `strftime('%Y-%m')` at this granularity.
  * Monetary amounts are exact rationals `ℚ` (idealisation of Python floats).
    `pandas.DataFrame.round(2)` is modelled as round-half-to-even at two
    decimal places, Python's `f"{x:.1f}"` as round-half-to-even at one place.
  * `pandas.Series.std()` uses `ddof = 1`: a one-element group has standard
    deviation NaN, and every IEEE comparison against NaN is false, so such a
    record can never satisfy `abs(z) > threshold`.  Over exact rationals a
    zero-variance group makes `z = 0/0` (NaN), again never flagged.  The
    flagging test `abs((a - mean)/std) > t` is embedded without square roots
    as `t < 0 ∨ t² · ssd < (a - mean)² · (n - 1)` guarded by `2 ≤ n` and
    `0 < ssd`, where `ssd` is the sum of squared deviations and
    `std² = ssd / (n - 1)`; this is equivalent for real arithmetic and
    reproduces the NaN cases as `false`.
  * Python `dict`s (budgets, the violations report) are association lists in
    insertion order with unique keys; `groupby` sorts its keys, modelled as
    an insertion sort over the deduplicated keys.
  * `float(input(...))` is modelled by its outcome, `Option ℚ`: `none` when
    the string is non-numeric and `ValueError` is raised.
-/

/-- Civil-calendar conversion: day count since 1970-01-01 to
(year, month, day), the standard integer-arithmetic algorithm. -/
def civilFromDays (z : ℤ) : ℤ × ℤ × ℤ :=
  let z' := z + 719468
  let era := z'.ediv 146097
  let doe := z' - era * 146097
  let yoe := (doe - doe.ediv 1460 + doe.ediv 36524 - doe.ediv 146096).ediv 365
  let y := yoe + era * 400
  let doy := doe - (365 * yoe + yoe.ediv 4 - yoe.ediv 100)
  let mp := (5 * doy + 2).ediv 153
  let d := doy - (153 * mp + 2).ediv 5 + 1
  let m := mp + (if mp < 10 then 3 else -9)
  (y + (if m ≤ 2 then 1 else 0), m, d)

/-- The `(year, month)` key of a day, as produced by `to_period('M')` /
`strftime('%Y-%m')` on a timestamp of that day. -/
def monthOf (z : ℤ) : ℤ × ℤ :=
  ((civilFromDays z).1, (civilFromDays z).2.1)

/-- One expense entry: the `{'date', 'category', 'amount', 'description'}`
rows of the tracker's DataFrame. -/
structure ExpenseRecord where
  date : ℤ
  category : String
  amount : ℚ
  description : String
deriving DecidableEq, Repr

/-- The in-memory record set (`self.data`), in insertion order. -/
abbrev Ledger := List ExpenseRecord

/-- Round a rational to the nearest integer, ties to even (IEEE / numpy
default rounding). -/
def roundHalfEven (q : ℚ) : ℤ :=
  let f := ⌊q⌋
  let r := q - (f : ℚ)
  if r < 1 / 2 then f
  else if 1 / 2 < r then f + 1
  else if f % 2 = 0 then f else f + 1

/-- `DataFrame.round(2)`: round to two decimal places. -/
def round2 (q : ℚ) : ℚ :=
  (roundHalfEven (q * 100) : ℚ) / 100

/-- Python `f"{q:.1f}"` for the rationals arising here: one decimal place,
ties to even. -/
def fmt1 (q : ℚ) : String :=
  let n := roundHalfEven (q * 10)
  let a := n.ediv 10
  let b := n.emod 10
  toString a ++ "." ++ toString b

/-- Amounts of the records in category `c`, in ledger order
(`data[data.category == c].amount`). -/
def categoryAmounts (data : Ledger) (c : String) : List ℚ :=
  (data.filter (fun r => decide (r.category = c))).map (fun r => r.amount)

/-- Decidability of the lexicographic (code-point) string order through the
character-list order, so that concrete sorts evaluate. -/
instance stringLeDec : DecidableRel ((· ≤ ·) : String → String → Prop) := fun a b =>
  decidable_of_iff (a.toList < b.toList ∨ a = b) (by
    show _ ↔ a ≤ b
    rw [String.le_iff_toList_le, le_iff_lt_or_eq]
    exact or_congr Iff.rfl String.toList_inj.symm)

/-- The distinct categories of the ledger, sorted ascending (Python sorts
strings by code point, the lexicographic order on their character lists) —
the index of `data.groupby('category')`. -/
def categoryKeys (data : Ledger) : List String :=
  @List.insertionSort String (· ≤ ·) stringLeDec ((data.map (fun r => r.category)).dedup)

/-- One row of the category summary: `agg(['sum', 'count', 'mean']).round(2)`. -/
structure CategoryRow where
  sum : ℚ
  count : ℕ
  mean : ℚ
deriving DecidableEq, Repr

/-- `ExpenseAnalyzer.get_category_summary`: per sorted distinct category, the
rounded sum, the count and the rounded mean of its amounts. -/
def get_category_summary (data : Ledger) : List (String × CategoryRow) :=
  (categoryKeys data).map (fun c =>
    let xs := categoryAmounts data c
    (c, { sum := round2 xs.sum
          count := xs.length
          mean := round2 (xs.sum / (xs.length : ℚ)) }))

/-- Chronological order on `(year, month)` keys. -/
def monthLe (a b : ℤ × ℤ) : Prop :=
  a.1 < b.1 ∨ (a.1 = b.1 ∧ a.2 ≤ b.2)

/-- `monthLe` is decidable by integer comparisons. -/
instance monthLeDec : DecidableRel monthLe := fun a b =>
  inferInstanceAs (Decidable (_ ∨ _))

/-- The distinct `(year, month)` keys of the ledger, chronologically sorted —
the index of `groupby('month')`. -/
def monthKeys (data : Ledger) : List (ℤ × ℤ) :=
  @List.insertionSort (ℤ × ℤ) monthLe monthLeDec
    ((data.map (fun r => monthOf r.date)).dedup)

/-- Amounts of the records falling in month `m`. -/
def monthAmounts (data : Ledger) (m : ℤ × ℤ) : List ℚ :=
  (data.filter (fun r => decide (monthOf r.date = m))).map (fun r => r.amount)

/-- One row of the monthly summary: `agg(['sum', 'count']).round(2)`. -/
structure MonthlyRow where
  sum : ℚ
  count : ℕ
deriving DecidableEq, Repr

/-- `ExpenseAnalyzer.get_monthly_summary`: per chronological `(year, month)`
bucket, the rounded sum and the count of its amounts. -/
def get_monthly_summary (data : Ledger) : List ((ℤ × ℤ) × MonthlyRow) :=
  (monthKeys data).map (fun m =>
    let xs := monthAmounts data m
    (m, { sum := round2 xs.sum, count := xs.length }))

/-- `set_index('date').resample('D')['amount'].sum().fillna(0)`: the daily
total-amount series spanning the observed date range, zero on gap days;
empty for an empty ledger. -/
def dailySeries (data : Ledger) : List ℚ :=
  match data.map (fun r => r.date) with
  | [] => []
  | d :: ds =>
    let lo := ds.foldl min d
    let hi := ds.foldl max d
    (List.range (hi - lo + 1).toNat).map (fun k =>
      ((data.filter (fun r => decide (r.date = lo + (k : ℤ)))).map
        (fun r => r.amount)).sum)

/-- `Series.rolling(window=w).mean()` with the default
`min_periods = window`: position `i` holds the mean of the `w` entries
ending there once `w` entries are available, and is NaN (`none`) before. -/
def rollingMean (xs : List ℚ) (window : ℕ) : List (Option ℚ) :=
  (List.range xs.length).map (fun i =>
    if window ≤ i + 1 then
      some ((((xs.take (i + 1)).drop (i + 1 - window)).sum) / (window : ℚ))
    else none)

/-- `ExpenseAnalyzer.get_spending_trend`. -/
def get_spending_trend (data : Ledger) (window : ℕ) : List (Option ℚ) :=
  rollingMean (dailySeries data) window

/-- Number of records in category `c` (`groupby('category').count()`). -/
def categoryCount (data : Ledger) (c : String) : ℕ :=
  (categoryAmounts data c).length

/-- Mean amount of category `c` (`groupby('category')['amount'].mean()`). -/
def categoryMean (data : Ledger) (c : String) : ℚ :=
  let xs := categoryAmounts data c
  xs.sum / (xs.length : ℚ)

/-- Sum of squared deviations of category `c`; the sample standard deviation
of `pandas.Series.std()` (with `ddof = 1`) is `√(ssd / (n - 1))`. -/
def categorySSD (data : Ledger) (c : String) : ℚ :=
  let xs := categoryAmounts data c
  (xs.map (fun a => (a - categoryMean data c) ^ 2)).sum

/-- The flagging test of `ExpenseAnalyzer.detect_anomalies` for one record:
`abs((amount - mean) / std) > threshold`, embedded square-root-free (see the
file header).  A one-record category (`n < 2`, std NaN) and a zero-variance
category (`ssd = 0`, `z = 0/0` NaN) are never flagged, matching IEEE
comparisons against NaN. -/
def isAnomaly (data : Ledger) (threshold : ℚ) (r : ExpenseRecord) : Bool :=
  let n := categoryCount data r.category
  let m := categoryMean data r.category
  let ssd := categorySSD data r.category
  decide (2 ≤ n) && decide (0 < ssd) &&
    (decide (threshold < 0) ||
      decide (threshold ^ 2 * ssd < (r.amount - m) ^ 2 * ((n : ℚ) - 1)))

/-- `ExpenseAnalyzer.detect_anomalies`: the flagged records in ledger order.
(The Python version returns each flagged row with its `z_score` appended; the
score itself is an irrational square root and only membership matters here.) -/
def detect_anomalies (data : Ledger) (threshold : ℚ) : Ledger :=
  data.filter (isAnomaly data threshold)

/-- One entry of the `violations` dict of
`BudgetManager.check_budget_violations`. -/
inductive BudgetEntry where
  | violation (limit spent overspend : ℚ)
  | warning (limit spent : ℚ) (message : String)
deriving DecidableEq, Repr

/-- The f-string `f"Approaching budget limit ({(total_spent/limit)*100:.1f}%)"`. -/
def warningMessage (spent limit : ℚ) : String :=
  "Approaching budget limit (" ++ fmt1 (spent / limit * 100) ++ "%)"

/-- Total spent in category `cat` during `currentMonth`
(`monthly_expenses[monthly_expenses.category == cat].amount.sum()`). -/
def monthlySpend (expenses : Ledger) (currentMonth : ℤ × ℤ) (cat : String) : ℚ :=
  (((expenses.filter (fun r => decide (monthOf r.date = currentMonth))).filter
      (fun r => decide (r.category = cat))).map (fun r => r.amount)).sum

/-- The loop body of `BudgetManager.check_budget_violations` for one
budgeted category: a month spend strictly above the limit yields a violation
entry, one strictly above 80% of the limit yields a warning entry, otherwise
no entry. -/
def budgetEntry (expenses : Ledger) (currentMonth : ℤ × ℤ) (cat : String)
    (limit : ℚ) : Option BudgetEntry :=
  let spent := monthlySpend expenses currentMonth cat
  if limit < spent then
    some (.violation limit spent (spent - limit))
  else if limit * (4 / 5) < spent then
    some (.warning limit spent (warningMessage spent limit))
  else none

/-- `BudgetManager.check_budget_violations`: iterate the budget mapping in
order, collecting the violation/warning entries keyed by category. -/
def check_budget_violations (budgets : List (String × ℚ)) (expenses : Ledger)
    (currentMonth : ℤ × ℤ) : List (String × BudgetEntry) :=
  budgets.filterMap (fun b =>
    (budgetEntry expenses currentMonth b.1 b.2).map (fun e => (b.1, e)))

/-- `BudgetManager.set_budget`: `self.budgets[category] = monthly_limit`,
dict-assignment semantics (overwrite in place, else append). -/
def setBudget (budgets : List (String × ℚ)) (cat : String) (limit : ℚ) :
    List (String × ℚ) :=
  if budgets.any (fun b => decide (b.1 = cat)) then
    budgets.map (fun b => if b.1 = cat then (cat, limit) else b)
  else budgets ++ [(cat, limit)]

/-- The mutable state of `ExpenseTracker` together with its persisted file:
the in-memory ledger, the ledger last written by `storage.save_data`, and the
budget mapping. -/
structure TrackerState where
  data : Ledger
  savedFile : Ledger
  budgets : List (String × ℚ)
deriving DecidableEq, Repr

/-- `ExpenseTracker.add_expense`: append the new record, persist the whole
ledger. -/
def addExpense (st : TrackerState) (today : ℤ) (cat : String) (amount : ℚ)
    (descr : String) : TrackerState :=
  let newData := st.data ++ [⟨today, cat, amount, descr⟩]
  { st with data := newData, savedFile := newData }

/-- The `choice == "1"` branch of `main`: `float(input(...))` is modelled by
its outcome (`none` = `ValueError` on a non-numeric amount).  Returns the new
state, the message printed, and whether the menu loop continues. -/
def menuAddExpense (st : TrackerState) (today : ℤ) (cat : String)
    (parsedAmount : Option ℚ) (descr : String) : TrackerState × String × Bool :=
  match parsedAmount with
  | none => (st, "Invalid amount. Please enter a number.", true)
  | some a => (addExpense st today cat a descr, "Expense added successfully!", true)

/-- `ExpenseTracker.set_budget` (menu choice `"3"`): `none` models a
non-numeric limit raising `ValueError`. -/
def menuSetBudget (st : TrackerState) (cat : String) (parsedLimit : Option ℚ) :
    TrackerState × String × Bool :=
  match parsedLimit with
  | none => (st, "Invalid amount. Please enter a number.", true)
  | some l =>
    ({ st with budgets := setBudget st.budgets cat l },
      "Budget set for " ++ cat, true)

/-! ### Helper lemmas -/

theorem check_budget_cons (b : String × ℚ) (bs : List (String × ℚ))
    (expenses : Ledger) (cm : ℤ × ℤ) :
    check_budget_violations (b :: bs) expenses cm =
      (match budgetEntry expenses cm b.1 b.2 with
        | none => check_budget_violations bs expenses cm
        | some e => (b.1, e) :: check_budget_violations bs expenses cm) := by
  rw [check_budget_violations, List.filterMap_cons]
  cases budgetEntry expenses cm b.1 b.2 <;> rfl

theorem lookup_check_of_not_mem (budgets : List (String × ℚ)) (expenses : Ledger)
    (cm : ℤ × ℤ) (cat : String) (h : cat ∉ budgets.map Prod.fst) :
    (check_budget_violations budgets expenses cm).lookup cat = none := by
  induction budgets with
  | nil => rfl
  | cons b bs ih =>
    simp only [List.map_cons, List.mem_cons, not_or] at h
    obtain ⟨h1, h2⟩ := h
    rw [check_budget_cons]
    cases hb : budgetEntry expenses cm b.1 b.2 with
    | none => exact ih h2
    | some e =>
      show List.lookup cat ((b.1, e) :: check_budget_violations bs expenses cm) = none
      simp only [List.lookup_cons, beq_false_of_ne h1]
      exact ih h2

theorem lookup_check (budgets : List (String × ℚ)) (expenses : Ledger)
    (cm : ℤ × ℤ) (cat : String) (limit : ℚ)
    (hnd : (budgets.map Prod.fst).Nodup) (hmem : (cat, limit) ∈ budgets) :
    (check_budget_violations budgets expenses cm).lookup cat =
      budgetEntry expenses cm cat limit := by
  induction budgets with
  | nil => cases hmem
  | cons b bs ih =>
    simp only [List.map_cons, List.nodup_cons] at hnd
    rcases List.mem_cons.mp hmem with heq | htail
    · subst heq
      rw [check_budget_cons]
      cases hb : budgetEntry expenses cm cat limit with
      | none => exact lookup_check_of_not_mem bs expenses cm cat hnd.1
      | some e =>
        show List.lookup cat ((cat, e) :: check_budget_violations bs expenses cm) = some e
        simp [List.lookup_cons]
    · have hne : cat ≠ b.1 := by
        rintro rfl
        exact hnd.1 (List.mem_map.mpr ⟨(b.1, limit), htail, rfl⟩)
      rw [check_budget_cons]
      cases hb : budgetEntry expenses cm b.1 b.2 with
      | none => exact ih hnd.2 htail
      | some e =>
        show List.lookup cat ((b.1, e) :: check_budget_violations bs expenses cm) =
          budgetEntry expenses cm cat limit
        simp only [List.lookup_cons, beq_false_of_ne hne]
        exact ih hnd.2 htail

theorem sum_map_filter_split {α M : Type} [AddCommMonoid M] (p : α → Bool)
    (g : α → M) (l : List α) :
    ((l.filter p).map g).sum + ((l.filter (fun a => !p a)).map g).sum
      = (l.map g).sum := by
  induction l with
  | nil => simp
  | cons a t ih =>
    cases hp : p a <;>
      simp [List.filter_cons, hp, ← ih, add_assoc, add_left_comm]

theorem sum_map_filter_key {α κ M : Type} [DecidableEq κ] [AddCommMonoid M]
    (key : α → κ) (g : α → M) :
    ∀ (keys : List κ) (l : List α), keys.Nodup → (∀ a ∈ l, key a ∈ keys) →
      (keys.map (fun k => ((l.filter (fun a => decide (key a = k))).map g).sum)).sum
        = (l.map g).sum := by
  intro keys
  induction keys with
  | nil =>
    intro l _ hcov
    cases l with
    | nil => simp
    | cons a t => exact absurd (hcov a (List.mem_cons_self a t)) (List.not_mem_nil _)
  | cons k ks ih =>
    intro l hnd hcov
    simp only [List.nodup_cons] at hnd
    have hstep : ∀ k' ∈ ks,
        l.filter (fun a => decide (key a = k'))
          = (l.filter (fun a => !decide (key a = k))).filter
              (fun a => decide (key a = k')) := by
      intro k' hk'
      rw [List.filter_filter]
      apply List.filter_congr
      intro a _
      cases hak : decide (key a = k') with
      | false => simp
      | true =>
        have : key a = k' := of_decide_eq_true hak
        have hne : ¬ key a = k := by
          rw [this]
          rintro rfl
          exact hnd.1 hk'
        simp [hne]
    have hcov' : ∀ a ∈ l.filter (fun a => !decide (key a = k)), key a ∈ ks := by
      intro a ha
      obtain ⟨hal, hap⟩ := List.mem_filter.mp ha
      have hne : key a ≠ k := by
        intro h
        simp [h] at hap
      rcases List.mem_cons.mp (hcov a hal) with h | h
      · exact absurd h hne
      · exact h
    have hmaps :
        ks.map (fun j => ((l.filter (fun a => decide (key a = j))).map g).sum)
          = ks.map (fun j =>
              (((l.filter (fun a => !decide (key a = k))).filter
                  (fun a => decide (key a = j))).map g).sum) := by
      apply List.map_congr_left
      intro j hj
      rw [hstep j hj]
    rw [List.map_cons, List.sum_cons, hmaps,
      ih (l.filter (fun a => !decide (key a = k))) hnd.2 hcov',
      ← sum_map_filter_split (fun a => decide (key a = k)) g l]

theorem roundHalfEven_intCast (k : ℤ) : roundHalfEven (k : ℚ) = k := by
  unfold roundHalfEven
  rw [Int.floor_intCast]
  norm_num

theorem round2_hundredth (k : ℤ) : round2 ((k : ℚ) / 100) = (k : ℚ) / 100 := by
  unfold round2
  rw [div_mul_cancel₀ _ (by norm_num : (100 : ℚ) ≠ 0), roundHalfEven_intCast]

theorem sum_hundredths (xs : List ℚ) (h : ∀ x ∈ xs, ∃ k : ℤ, x = (k : ℚ) / 100) :
    ∃ k : ℤ, xs.sum = (k : ℚ) / 100 := by
  induction xs with
  | nil => exact ⟨0, by simp⟩
  | cons a t ih =>
    obtain ⟨k1, hk1⟩ := h a (List.mem_cons_self a t)
    obtain ⟨k2, hk2⟩ := ih (fun x hx => h x (List.mem_cons_of_mem a hx))
    refine ⟨k1 + k2, ?_⟩
    rw [List.sum_cons, hk1, hk2]
    push_cast
    ring

theorem sum_map_one {α : Type} (l : List α) :
    (l.map (fun _ => (1 : ℕ))).sum = l.length := by
  induction l with
  | nil => rfl
  | cons a t ih => simp [ih, Nat.add_comm]

theorem countP_eq_one_of_nodup_mem {α : Type} [DecidableEq α] {l : List α}
    {a : α} (hn : l.Nodup) (hm : a ∈ l) :
    l.countP (fun b => decide (b = a)) = 1 := by
  induction l with
  | nil => cases hm
  | cons x t ih =>
    rw [List.countP_cons]
    obtain ⟨hx, ht⟩ := List.nodup_cons.mp hn
    rcases List.mem_cons.mp hm with rfl | hmt
    · have ht0 : t.countP (fun b => decide (b = a)) = 0 := by
        rw [List.countP_eq_zero]
        intro b hb
        simp only [decide_eq_true_eq]
        rintro rfl
        exact hx hb
      simp [ht0]
    · have hxa : ¬ x = a := by
        rintro rfl
        exact hx hmt
      simp [ih ht hmt, hxa]

theorem mem_detect_iff (L : Ledger) (t : ℚ) (r : ExpenseRecord) :
    r ∈ detect_anomalies L t ↔ r ∈ L ∧ isAnomaly L t r = true :=
  List.mem_filter

theorem ssd_zero_of_const (L : Ledger) (c : String) (a : ℚ)
    (h : ∀ x ∈ categoryAmounts L c, x = a) : categorySSD L c = 0 := by
  simp only [categorySSD]
  apply List.sum_eq_zero
  intro y hy
  obtain ⟨x, hx, rfl⟩ := List.mem_map.mp hy
  have hlen : ((categoryAmounts L c).length : ℚ) ≠ 0 := by
    have : 0 < (categoryAmounts L c).length := List.length_pos.mpr (by
      intro hnil
      rw [hnil] at hx
      exact List.not_mem_nil x hx)
    exact_mod_cast Nat.pos_iff_ne_zero.mp this
  have hmean : categoryMean L c = a := by
    simp only [categoryMean]
    rw [List.sum_eq_card_nsmul _ a h, nsmul_eq_mul]
    exact mul_div_cancel_left₀ a hlen
  rw [hmean, h x hx, sub_self]
  ring

/-! ### Claim theorems -/

/-- C3: for every ledger and threshold, the anomaly detector never flags a
record of a category whose standard deviation is zero or undefined (a
category with exactly one record, or with all amounts identical), and on any
flagged record the category standard deviation is nonzero (and defined:
at least two records), so the z-score division never divides by zero. -/
theorem anomaly_never_flags_degenerate :
    ∀ (L : Ledger) (t : ℚ) (r : ExpenseRecord),
      ((categoryCount L r.category = 1 ∨
          ∀ s ∈ L, s.category = r.category → s.amount = r.amount) →
        r ∉ detect_anomalies L t)
      ∧ (r ∈ detect_anomalies L t →
          2 ≤ categoryCount L r.category ∧ categorySSD L r.category ≠ 0) := by
  intro L t r
  have hflag : ∀ hm : r ∈ detect_anomalies L t,
      2 ≤ categoryCount L r.category ∧ 0 < categorySSD L r.category := by
    intro hm
    have h := ((mem_detect_iff L t r).mp hm).2
    simp only [isAnomaly, Bool.and_eq_true, decide_eq_true_eq] at h
    exact ⟨h.1.1, h.1.2⟩
  constructor
  · intro hdeg hmem
    obtain ⟨h2n, hssd⟩ := hflag hmem
    rcases hdeg with h1 | hall
    · rw [h1] at h2n
      omega
    · have hzero : categorySSD L r.category = 0 := by
        apply ssd_zero_of_const L r.category r.amount
        intro x hx
        obtain ⟨s, hs, rfl⟩ := List.mem_map.mp hx
        obtain ⟨hsL, hsc⟩ := List.mem_filter.mp hs
        exact hall s hsL (of_decide_eq_true hsc)
      rw [hzero] at hssd
      exact lt_irrefl 0 hssd
  · intro hmem
    obtain ⟨h2n, hssd⟩ := hflag hmem
    exact ⟨h2n, ne_of_gt hssd⟩

/-- Witness for C3: a single-record category is never flagged. -/
theorem anomaly_never_flags_degenerate_witness :
    (⟨0, "A", 5, ""⟩ : ExpenseRecord) ∉
      detect_anomalies [⟨0, "A", 5, ""⟩] 2 :=
  (anomaly_never_flags_degenerate [⟨0, "A", 5, ""⟩] 2 ⟨0, "A", 5, ""⟩).1
    (Or.inl (by norm_num [categoryCount, categoryAmounts, List.filter]))

/-- C4 counterexample: on the ledger {Food 10, Food 1000, Food 12} with
threshold 2.0 the detector does NOT flag the {Food, 1000} record (its
z-score is 2/√3 ≈ 1.15, and no three-point sample can reach |z| > 2 with
the sample standard deviation). -/
theorem detect_small_sample_not_flagged :
    (⟨0, "Food", 1000, ""⟩ : ExpenseRecord) ∉
      detect_anomalies
        [⟨0, "Food", 10, ""⟩, ⟨0, "Food", 1000, ""⟩, ⟨0, "Food", 12, ""⟩] 2 := by
  intro hmem
  have h := ((mem_detect_iff _ 2 _).mp hmem).2
  norm_num [isAnomaly, categoryCount, categoryAmounts, categoryMean, categorySSD,
    List.filter] at h

/-- C4 amended: on the ledger {Food 10, Food 1000, Food 12} with threshold
2.0 the detector flags nothing at all. -/
theorem detect_small_sample_empty :
    detect_anomalies
      [⟨0, "Food", 10, ""⟩, ⟨0, "Food", 1000, ""⟩, ⟨0, "Food", 12, ""⟩] 2 = [] := by
  norm_num [detect_anomalies, isAnomaly, categoryCount, categoryAmounts,
    categoryMean, categorySSD, List.filter]

/-- C1: a budgeted category's entry is a Warning exactly when its
current-month spend lies in the half-open interval (0.8 × limit, limit];
with limit 1000, a spend of 850 yields the warning message "85.0%", and a
spend of exactly 800 yields no entry at all. -/
theorem budget_warning_iff :
    (∀ (budgets : List (String × ℚ)) (expenses : Ledger) (cm : ℤ × ℤ)
        (cat : String) (limit : ℚ),
        (budgets.map Prod.fst).Nodup → (cat, limit) ∈ budgets →
        ((∃ msg, (check_budget_violations budgets expenses cm).lookup cat =
            some (.warning limit (monthlySpend expenses cm cat) msg)) ↔
          (limit * (4 / 5) < monthlySpend expenses cm cat ∧
            monthlySpend expenses cm cat ≤ limit)))
    ∧ (check_budget_violations [("Food", 1000)]
        [⟨0, "Food", 850, ""⟩] (monthOf 0)).lookup "Food" =
        some (.warning 1000 850 "Approaching budget limit (85.0%)")
    ∧ (check_budget_violations [("Food", 1000)]
        [⟨0, "Food", 800, ""⟩] (monthOf 0)).lookup "Food" = none := by
  refine ⟨?_, ?_, ?_⟩
  · intro budgets expenses cm cat limit hnd hmem
    rw [lookup_check budgets expenses cm cat limit hnd hmem]
    simp only [budgetEntry]
    split_ifs with h1 h2
    · constructor
      · rintro ⟨msg, hmsg⟩
        simp at hmsg
      · rintro ⟨-, hle⟩
        exact absurd h1 (not_lt.mpr hle)
    · constructor
      · rintro ⟨-, -⟩
        exact ⟨h2, not_lt.mp h1⟩
      · rintro ⟨-, -⟩
        exact ⟨warningMessage (monthlySpend expenses cm cat) limit, rfl⟩
    · constructor
      · rintro ⟨msg, hmsg⟩
        simp at hmsg
      · rintro ⟨hgt, -⟩
        exact absurd hgt h2
  · norm_num [check_budget_violations, budgetEntry, monthlySpend, monthOf,
      civilFromDays, warningMessage, fmt1, roundHalfEven, List.filter,
      List.filterMap, List.lookup]
    rfl
  · norm_num [check_budget_violations, budgetEntry, monthlySpend, monthOf,
      civilFromDays, List.filter, List.filterMap, List.lookup]

/-- Witness for C1: at limit 1000 and month spend 850, a warning entry with
that spend is present. -/
theorem budget_warning_iff_witness :
    ∃ msg, (check_budget_violations [("Food", 1000)]
        [⟨0, "Food", 850, ""⟩] (monthOf 0)).lookup "Food" =
      some (.warning 1000
        (monthlySpend [⟨0, "Food", 850, ""⟩] (monthOf 0) "Food") msg) :=
  (budget_warning_iff.1 [("Food", 1000)] [⟨0, "Food", 850, ""⟩] (monthOf 0)
      "Food" 1000 (by simp) (by simp)).mpr
    (by constructor <;>
      norm_num [monthlySpend, monthOf, civilFromDays, List.filter])

/-- C2 counterexample: with budget Food → 1000 and a current-month spend of
exactly 1000 (spend = limit, i.e. 100%), the evaluator reports a Warning,
not a Violation — the strict `>` comparison sends the 100% boundary into the
warning branch. -/
theorem budget_at_limit_is_warning :
    (check_budget_violations [("Food", 1000)]
        [⟨0, "Food", 1000, ""⟩] (monthOf 0)).lookup "Food" =
      some (.warning 1000 1000 "Approaching budget limit (100.0%)")
    ∧ ¬ ∃ l s o, (check_budget_violations [("Food", 1000)]
        [⟨0, "Food", 1000, ""⟩] (monthOf 0)).lookup "Food" =
      some (.violation l s o) := by
  have h : (check_budget_violations [("Food", 1000)]
      [⟨0, "Food", 1000, ""⟩] (monthOf 0)).lookup "Food" =
      some (.warning 1000 1000 "Approaching budget limit (100.0%)") := by
    norm_num [check_budget_violations, budgetEntry, monthlySpend, monthOf,
      civilFromDays, warningMessage, fmt1, roundHalfEven, List.filter,
      List.filterMap, List.lookup]
    rfl
  refine ⟨h, ?_⟩
  rintro ⟨l, s, o, ho⟩
  rw [h] at ho
  simp at ho

/-- C2 amended: for every budgeted category exactly one of
Violation / Warning / no entry (OK) holds per evaluation, and at a
current-month spend exactly equal to a POSITIVE limit the evaluator
classifies the category as a Warning (not a Violation): both boundary
comparisons are strict `>`. -/
theorem budget_exactly_one_state :
    ∀ (budgets : List (String × ℚ)) (expenses : Ledger) (cm : ℤ × ℤ)
      (cat : String) (limit : ℚ),
      (budgets.map Prod.fst).Nodup → (cat, limit) ∈ budgets →
      (((∃ l s o, (check_budget_violations budgets expenses cm).lookup cat =
            some (.violation l s o))
        ∨ (∃ l s m, (check_budget_violations budgets expenses cm).lookup cat =
            some (.warning l s m))
        ∨ (check_budget_violations budgets expenses cm).lookup cat = none)
      ∧ ¬ ((∃ l s o, (check_budget_violations budgets expenses cm).lookup cat =
            some (.violation l s o))
          ∧ (∃ l s m, (check_budget_violations budgets expenses cm).lookup cat =
            some (.warning l s m)))
      ∧ ¬ ((∃ l s o, (check_budget_violations budgets expenses cm).lookup cat =
            some (.violation l s o))
          ∧ (check_budget_violations budgets expenses cm).lookup cat = none)
      ∧ ¬ ((∃ l s m, (check_budget_violations budgets expenses cm).lookup cat =
            some (.warning l s m))
          ∧ (check_budget_violations budgets expenses cm).lookup cat = none)
      ∧ (monthlySpend expenses cm cat = limit → 0 < limit →
          (check_budget_violations budgets expenses cm).lookup cat =
            some (.warning limit limit (warningMessage limit limit)))) := by
  intro budgets expenses cm cat limit hnd hmem
  rw [lookup_check budgets expenses cm cat limit hnd hmem]
  simp only [budgetEntry]
  split_ifs with h1 h2
  · refine ⟨Or.inl ⟨limit, monthlySpend expenses cm cat, _, rfl⟩, ?_, ?_, ?_, ?_⟩
    · rintro ⟨-, l, s, m, hw⟩
      simp at hw
    · rintro ⟨-, hn⟩
      simp at hn
    · rintro ⟨⟨l, s, m, hw⟩, -⟩
      simp at hw
    · intro hs
      rw [hs] at h1
      exact absurd h1 (lt_irrefl limit)
  · refine ⟨Or.inr (Or.inl ⟨limit, monthlySpend expenses cm cat, _, rfl⟩),
      ?_, ?_, ?_, ?_⟩
    · rintro ⟨⟨l, s, o, hv⟩, -⟩
      simp at hv
    · rintro ⟨⟨l, s, o, hv⟩, -⟩
      simp at hv
    · rintro ⟨-, hn⟩
      simp at hn
    · intro hs _
      rw [hs]
  · refine ⟨Or.inr (Or.inr rfl), ?_, ?_, ?_, ?_⟩
    · rintro ⟨⟨l, s, o, hv⟩, -⟩
      simp at hv
    · rintro ⟨⟨l, s, o, hv⟩, -⟩
      simp at hv
    · rintro ⟨⟨l, s, m, hw⟩, -⟩
      simp at hw
    · intro hs hpos
      rw [hs] at h2
      exact absurd (by linarith : limit * (4 / 5) < limit) h2

/-- Witness for C2: at a spend exactly equal to the positive limit 1000,
the reported entry is a Warning. -/
theorem budget_exactly_one_state_witness :
    (check_budget_violations [("Food", 1000)]
        [⟨0, "Food", 1000, ""⟩] (monthOf 0)).lookup "Food" =
      some (.warning 1000 1000 (warningMessage 1000 1000)) :=
  (budget_exactly_one_state [("Food", 1000)] [⟨0, "Food", 1000, ""⟩]
      (monthOf 0) "Food" 1000 (by simp) (by simp)).2.2.2.2
    (by norm_num [monthlySpend, monthOf, civilFromDays, List.filter])
    (by norm_num)

/-- C9: a category with a negative budget limit is reported as a Violation
even at zero current-month spend, with spent 0 and overspend −limit; the
evaluator does not reject or skip non-positive limits. -/
theorem negative_budget_violation :
    ∀ (budgets : List (String × ℚ)) (expenses : Ledger) (cm : ℤ × ℤ)
      (cat : String) (limit : ℚ),
      (budgets.map Prod.fst).Nodup → (cat, limit) ∈ budgets → limit < 0 →
      monthlySpend expenses cm cat = 0 →
      (check_budget_violations budgets expenses cm).lookup cat =
        some (.violation limit 0 (0 - limit)) := by
  intro budgets expenses cm cat limit hnd hmem hneg hz
  rw [lookup_check budgets expenses cm cat limit hnd hmem]
  simp only [budgetEntry, hz]
  rw [if_pos hneg]

/-- Witness for C9: limit −50 with no expenses at all yields a violation
entry with spent 0 and overspend 50. -/
theorem negative_budget_violation_witness :
    (check_budget_violations [("Food", -50)] [] (monthOf 0)).lookup "Food" =
      some (.violation (-50) 0 (0 - (-50))) :=
  negative_budget_violation [("Food", -50)] [] (monthOf 0) "Food" (-50)
    (by simp) (by simp) (by norm_num) (by norm_num [monthlySpend])

/-- C5 counterexample: the per-category `sum` field is rounded to two
decimal places, so for the one-record ledger {A, 0.004} the summary's sum
column totals 0 while the ledger total is 0.004. -/
theorem category_sum_rounding_counterexample :
    ¬ (((get_category_summary [⟨0, "A", 1 / 250, "x"⟩]).map
          (fun p => p.2.sum)).sum
        = (([⟨0, "A", 1 / 250, "x"⟩] : Ledger).map (fun r => r.amount)).sum) := by
  have hk : categoryKeys [⟨0, "A", 1 / 250, "x"⟩] = ["A"] := rfl
  rw [get_category_summary, hk]
  simp only [List.map_map, List.map_cons, List.map_nil, Function.comp]
  norm_num [categoryAmounts, List.filter, round2, roundHalfEven, Int.fract]

/-- C5 amended: whenever every amount is a whole number of hundredths (so
the 2-decimal rounding of each per-category sum is exact), the per-category
`sum` fields of the category summary add up to the total of all amounts in
the ledger. -/
theorem category_sums_total :
    ∀ L : Ledger, (∀ r ∈ L, ∃ k : ℤ, r.amount = (k : ℚ) / 100) →
      ((get_category_summary L).map (fun p => p.2.sum)).sum
        = (L.map (fun r => r.amount)).sum := by
  intro L h
  have hmap : (get_category_summary L).map (fun p => p.2.sum)
      = (categoryKeys L).map (fun c => round2 (categoryAmounts L c).sum) := by
    rw [get_category_summary, List.map_map]
    rfl
  rw [hmap]
  have hround : (categoryKeys L).map (fun c => round2 (categoryAmounts L c).sum)
      = (categoryKeys L).map (fun c => (categoryAmounts L c).sum) := by
    apply List.map_congr_left
    intro c _
    obtain ⟨k, hk⟩ := sum_hundredths (categoryAmounts L c) (by
      intro x hx
      obtain ⟨s, hs, rfl⟩ := List.mem_map.mp hx
      exact h s (List.mem_filter.mp hs).1)
    rw [hk, round2_hundredth]
  rw [hround]
  have hperm : ((categoryKeys L).map (fun c => (categoryAmounts L c).sum)).Perm
      (((L.map (fun r => r.category)).dedup).map
        (fun c => (categoryAmounts L c).sum)) :=
    List.Perm.map _ (List.perm_insertionSort _ _)
  rw [List.Perm.sum_eq hperm]
  simp only [categoryAmounts]
  exact sum_map_filter_key (fun r => r.category) (fun r => r.amount)
    ((L.map (fun r => r.category)).dedup) L (List.nodup_dedup _)
    (fun r hr => List.mem_dedup.mpr (List.mem_map.mpr ⟨r, hr, rfl⟩))

/-- Witness for C5 (amended): a two-category ledger whose amounts are whole
hundredths. -/
theorem category_sums_total_witness :
    ((get_category_summary [⟨0, "A", 5 / 2, ""⟩, ⟨0, "B", 1, ""⟩]).map
        (fun p => p.2.sum)).sum
      = (([⟨0, "A", 5 / 2, ""⟩, ⟨0, "B", 1, ""⟩] : Ledger).map
          (fun r => r.amount)).sum :=
  category_sums_total _ (by
    intro r hr
    simp only [List.mem_cons, List.not_mem_nil, or_false] at hr
    rcases hr with rfl | rfl
    · exact ⟨250, by norm_num⟩
    · exact ⟨100, by norm_num⟩)

/-- C6: the monthly summary partitions the ledger — every record is counted
in exactly one (year, month) bucket, and the bucket counts sum to the number
of records. -/
theorem monthly_partition :
    ∀ L : Ledger,
      (∀ r ∈ L, ((get_monthly_summary L).map Prod.fst).countP
          (fun k => decide (k = monthOf r.date)) = 1)
      ∧ ((get_monthly_summary L).map (fun p => p.2.count)).sum = L.length := by
  intro L
  have hkeys : (get_monthly_summary L).map Prod.fst = monthKeys L := by
    rw [get_monthly_summary, List.map_map]
    exact List.map_id _
  have hnd : (monthKeys L).Nodup :=
    ((List.perm_insertionSort _ _).nodup_iff).mpr (List.nodup_dedup _)
  constructor
  · intro r hr
    rw [hkeys]
    exact countP_eq_one_of_nodup_mem hnd
      ((List.Perm.mem_iff (List.perm_insertionSort _ _)).mpr
        (List.mem_dedup.mpr (List.mem_map.mpr ⟨r, hr, rfl⟩)))
  · have hcounts : (get_monthly_summary L).map (fun p => p.2.count)
        = (monthKeys L).map (fun m => ((L.filter
            (fun r => decide (monthOf r.date = m))).map (fun _ => (1 : ℕ))).sum) := by
      rw [get_monthly_summary, List.map_map]
      apply List.map_congr_left
      intro m _
      show (monthAmounts L m).length = _
      rw [monthAmounts, List.length_map, ← sum_map_one]
    rw [hcounts]
    have hperm : ((monthKeys L).map (fun m => ((L.filter
          (fun r => decide (monthOf r.date = m))).map (fun _ => (1 : ℕ))).sum)).Perm
        (((L.map (fun r => monthOf r.date)).dedup).map (fun m => ((L.filter
          (fun r => decide (monthOf r.date = m))).map (fun _ => (1 : ℕ))).sum)) :=
      List.Perm.map _ (List.perm_insertionSort _ _)
    rw [List.Perm.sum_eq hperm]
    rw [sum_map_filter_key (fun r => monthOf r.date) (fun _ => (1 : ℕ)) _ L
      (List.nodup_dedup _)
      (fun r hr => List.mem_dedup.mpr (List.mem_map.mpr ⟨r, hr, rfl⟩))]
    exact sum_map_one L

/-- Witness for C6: a two-record ledger spanning two months. -/
theorem monthly_partition_witness :
    ((get_monthly_summary [⟨0, "A", 5, ""⟩, ⟨40, "B", 7, ""⟩]).map
        Prod.fst).countP
      (fun k => decide (k = monthOf (⟨0, "A", 5, ""⟩ : ExpenseRecord).date)) = 1
    ∧ ((get_monthly_summary [⟨0, "A", 5, ""⟩, ⟨40, "B", 7, ""⟩]).map
        (fun p => p.2.count)).sum
      = ([⟨0, "A", 5, ""⟩, ⟨40, "B", 7, ""⟩] : Ledger).length :=
  ⟨(monthly_partition _).1 ⟨0, "A", 5, ""⟩ (by simp),
    (monthly_partition _).2⟩

theorem countP_range_window (n w : ℕ) (hw : 1 ≤ w) :
    (List.range n).countP (fun i => decide (w ≤ i + 1)) = n + 1 - w := by
  induction n with
  | zero =>
    simp only [List.range_zero, List.countP_nil]
    omega
  | succ n ih =>
    rw [List.range_succ, List.countP_append, ih]
    have hc : (List.countP (fun i => decide (w ≤ i + 1)) [n])
        = if w ≤ n + 1 then 1 else 0 := by
      rw [List.countP_cons, List.countP_nil]
      by_cases h : w ≤ n + 1 <;> simp [h]
    rw [hc]
    by_cases h : w ≤ n + 1
    · rw [if_pos h]
      omega
    · rw [if_neg h]
      omega

/-- C7: on the daily series of length `n`, the rolling trend with window `w`
has exactly `max(0, n − w + 1)` defined points (here `n + 1 - w` in
truncated ℕ subtraction), and each of the first `w − 1` positions is
undefined (`none`). -/
theorem trend_window_count :
    ∀ (L : Ledger) (w : ℕ), 1 ≤ w →
      ((get_spending_trend L w).countP (fun o => o.isSome)
          = (dailySeries L).length + 1 - w)
      ∧ (∀ i : ℕ, i + 1 < w → i < (dailySeries L).length →
          (get_spending_trend L w)[i]? = some none) := by
  intro L w hw
  constructor
  · rw [get_spending_trend, rollingMean, List.countP_map]
    calc (List.range (dailySeries L).length).countP
          ((fun o : Option ℚ => o.isSome) ∘ fun i =>
            if w ≤ i + 1 then
              some (((((dailySeries L).take (i + 1)).drop (i + 1 - w)).sum)
                / (w : ℚ))
            else none)
        = (List.range (dailySeries L).length).countP
            (fun i => decide (w ≤ i + 1)) := by
          apply List.countP_congr
          intro i _
          by_cases h : w ≤ i + 1 <;> simp [h]
      _ = (dailySeries L).length + 1 - w :=
          countP_range_window (dailySeries L).length w hw
  · intro i h1 h2
    rw [get_spending_trend, rollingMean, List.getElem?_map,
      List.getElem?_range h2]
    exact congrArg some (if_neg (by omega))

/-- Witness for C7: a four-day series (two records three days apart) with
window 2 has 3 defined points and an undefined first point. -/
theorem trend_window_count_witness :
    ((get_spending_trend [⟨0, "A", 5, ""⟩, ⟨3, "B", 7, ""⟩] 2).countP
        (fun o => o.isSome)
      = (dailySeries [⟨0, "A", 5, ""⟩, ⟨3, "B", 7, ""⟩]).length + 1 - 2)
    ∧ (get_spending_trend [⟨0, "A", 5, ""⟩, ⟨3, "B", 7, ""⟩] 2)[0]? = some none :=
  ⟨(trend_window_count [⟨0, "A", 5, ""⟩, ⟨3, "B", 7, ""⟩] 2 (by norm_num)).1,
    (trend_window_count [⟨0, "A", 5, ""⟩, ⟨3, "B", 7, ""⟩] 2 (by norm_num)).2 0
      (by norm_num) (by decide)⟩

/-- C8: a non-numeric amount at add-expense and a non-numeric limit at
set-budget (modelled as `none`, the `ValueError` outcome of `float(...)`)
abort the operation with a local error message, mutate no state — ledger,
persisted file and budget mapping are unchanged — and the menu loop
continues. -/
theorem invalid_input_no_mutation :
    ∀ (st : TrackerState) (today : ℤ) (cat descr : String),
      menuAddExpense st today cat none descr
          = (st, "Invalid amount. Please enter a number.", true)
      ∧ menuSetBudget st cat none
          = (st, "Invalid amount. Please enter a number.", true) := by
  intro st today cat descr
  exact ⟨rfl, rfl⟩

/-- C10: the category summary has its rows in strictly ascending
lexicographic order of category name (hence exactly one row per distinct
category), and a category appears iff it occurs in the ledger. -/
theorem category_rows_sorted :
    ∀ L : Ledger,
      List.Sorted (· < ·) ((get_category_summary L).map Prod.fst)
      ∧ (∀ c : String,
          c ∈ (get_category_summary L).map Prod.fst ↔
            ∃ r ∈ L, r.category = c) := by
  intro L
  have hkeys : (get_category_summary L).map Prod.fst = categoryKeys L := by
    rw [get_category_summary, List.map_map]
    exact List.map_id _
  have hsorted : List.Sorted (· ≤ ·) (categoryKeys L) :=
    List.sorted_insertionSort (· ≤ ·) _
  have hnd : (categoryKeys L).Nodup :=
    ((List.perm_insertionSort _ _).nodup_iff).mpr (List.nodup_dedup _)
  constructor
  · rw [hkeys]
    exact List.Pairwise.imp (fun h => lt_of_le_of_ne h.1 h.2)
      (List.Pairwise.and hsorted hnd)
  · intro c
    rw [hkeys, categoryKeys,
      List.Perm.mem_iff (List.perm_insertionSort _ _), List.mem_dedup,
      List.mem_map]
